import Mathlib

/-!
Verification of the mutual-friend suggestion core of the `mutual-mate-network`
repository.  The definitions below are a shallow embedding of:

* `src/pages/Dashboard.tsx` — `loadFriends`, `loadAllUsers`,
  `calculateSuggestions`, `addFriend`, `removeFriend` (the plain Dashboard
  variant whose line numbers the claims cite);
* the SQL schema of the `friendships` table — `UNIQUE(user_id, friend_id)`
  and `CHECK (user_id != friend_id)` — together with Postgres statement-level
  atomicity for the two-row insert that `addFriend` issues;
* the `get_network_friendships` SQL function (first/second degree edge
  subgraph).

User ids (UUIDs in the source) are modelled as `Nat`.  Profile fields that
the logic never inspects (name, email, bio, row id) are omitted; a profile
is identified by its `user_id`, which the schema declares `UNIQUE`.
-/

/-- A row of the `profiles` table, reduced to the field the suggestion logic
reads (`user_id`).  Display-only fields are omitted. -/
structure Profile where
  user_id : Nat
  deriving DecidableEq, Repr

/-- A row of the `friendships` table (the generated `id` column is omitted;
it never participates in any query the core issues). -/
structure Friendship where
  user_id : Nat
  friend_id : Nat
  deriving DecidableEq, Repr

/-- A friend suggestion: in the source, `{ ...userProfile, mutualFriends }`,
i.e. the candidate's profile spread together with the mutual counter. -/
structure Suggestion where
  user_id : Nat
  mutualFriends : Nat
  deriving DecidableEq, Repr

/-- The row filter `f.user_id === x || f.friend_id === x` used by
`loadFriends` (`.or(user_id.eq.x,friend_id.eq.x)`) and by the per-friend
filter inside `calculateSuggestions`. -/
def adjRow (x : Nat) (f : Friendship) : Bool :=
  f.user_id == x || f.friend_id == x

/-- The endpoint selection `f.user_id === x ? f.friend_id : f.user_id`
used both by `loadFriends` and by `calculateSuggestions`. -/
def otherEnd (x : Nat) (f : Friendship) : Nat :=
  if f.user_id == x then f.friend_id else f.user_id

/-- `loadFriends` lines 84–86: the ids adjacent to `u` in the fetched edge
rows (one entry per matching row, in row order). -/
def friendIdsOf (u : Nat) (rows : List Friendship) : List Nat :=
  (rows.filter (adjRow u)).map (otherEnd u)

/-- `loadFriends` second query: `profiles` rows whose `user_id` is in the
adjacency id list (`.in('user_id', friendIds)`), in table order. -/
def loadFriends (u : Nat) (profiles : List Profile) (rows : List Friendship) :
    List Profile :=
  profiles.filter (fun p => (friendIdsOf u rows).contains p.user_id)

/-- `loadAllUsers`: all profiles except the requester
(`.neq('user_id', user.id)`). -/
def loadAllUsers (u : Nat) (profiles : List Profile) : List Profile :=
  profiles.filter (fun p => !(p.user_id == u))

/-- One `suggestionsMap.set(k, (get(k) || 0) + 1)` step on a JS `Map`
modelled as an insertion-ordered association list: an existing key keeps its
position, a new key is appended. -/
def bump (m : List (Nat × Nat)) (k : Nat) : List (Nat × Nat) :=
  match m with
  | [] => [(k, 1)]
  | (k', v) :: rest => if k' == k then (k', v + 1) :: rest else (k', v) :: bump rest k

/-- The inner loop of `calculateSuggestions` for one friend `friendId`:
filter the edge list to rows touching the friend, and for each row count the
other endpoint unless it is the requester or an existing friend. -/
def perFriend (u : Nat) (friendIds : List Nat) (rows : List Friendship)
    (m : List (Nat × Nat)) (friendId : Nat) : List (Nat × Nat) :=
  (rows.filter (adjRow friendId)).foldl
    (fun m f =>
      let potential := otherEnd friendId f
      if potential != u && !(friendIds.contains potential) then bump m potential
      else m)
    m

/-- `calculateSuggestions` lines 142–161: the `suggestionsMap` after the
double `forEach`. -/
def suggestionsMap (u : Nat) (friendIds : List Nat) (rows : List Friendship) :
    List (Nat × Nat) :=
  friendIds.foldl (perFriend u friendIds rows) []

/-- `calculateSuggestions` lines 164–169: map entries (in insertion order) to
suggestions via a profile lookup in `allUsers`, silently dropping entries
whose profile is absent (`.filter(s => s !== null)`). -/
def suggestionsUnsorted (u : Nat) (friends allUsers : List Profile)
    (rows : List Friendship) : List Suggestion :=
  (suggestionsMap u (friends.map (·.user_id)) rows).filterMap
    (fun kv =>
      match allUsers.find? (fun p => p.user_id == kv.1) with
      | some p => some ⟨p.user_id, kv.2⟩
      | none => none)

/-- One step of a stable descending insertion sort on `mutualFriends`:
the element being inserted precedes every later element whose count is not
larger.  Used to model the ECMAScript stable
`sort((a, b) => b.mutualFriends - a.mutualFriends)`. -/
def insertDesc (s : Suggestion) : List Suggestion → List Suggestion
  | [] => [s]
  | t :: rest =>
      if t.mutualFriends ≤ s.mutualFriends then s :: t :: rest
      else t :: insertDesc s rest

/-- Stable sort, non-increasing in `mutualFriends`; ties keep their input
order, exactly as the (stable) JS array sort with comparator
`b.mutualFriends - a.mutualFriends` does. -/
def sortByMutualDesc (l : List Suggestion) : List Suggestion :=
  l.foldr insertDesc []

/-- `calculateSuggestions` line 170: the emitted, sorted suggestion list. -/
def calculateSuggestions (u : Nat) (friends allUsers : List Profile)
    (rows : List Friendship) : List Suggestion :=
  sortByMutualDesc (suggestionsUnsorted u friends allUsers rows)

/-- The suggestion pipeline for one consistent snapshot (`profiles` table and
`friendships` table): derive the `friends` and `allUsers` states as the
loaders do, then apply the effect of Dashboard lines 122–128 (compute
suggestions only when both states are non-empty, otherwise `[]`). -/
def suggestionsFor (u : Nat) (profiles : List Profile) (rows : List Friendship) :
    List Suggestion :=
  let friends := loadFriends u profiles rows
  let allUsers := loadAllUsers u profiles
  if friends.isEmpty || allUsers.isEmpty then []
  else calculateSuggestions u friends allUsers rows

/-- `c` is a direct friend of `u` according to the stored edge list: some row
links them in either orientation. -/
def adjacentIn (rows : List Friendship) (u c : Nat) : Prop :=
  ∃ f ∈ rows, (f.user_id = u ∧ f.friend_id = c) ∨ (f.user_id = c ∧ f.friend_id = u)

/-- Modelled from the spec: `mutualCount(c) = |neighborsOf(u) ∩ neighborsOf(c)|`
counted once per *distinct* mutual friend (spec §4.2/§8).  Used only to
compare the code's reported counter against the spec's definition. -/
def distinctMutualCount (rows : List Friendship) (u c : Nat) : Nat :=
  ((friendIdsOf u rows).dedup.filter
    (fun x => (friendIdsOf c rows).contains x)).length

/-! ## The mutation gateway (`addFriend` / `removeFriend` against the store) -/

/-- The `UNIQUE(user_id, friend_id)` constraint: a row conflicts when a row
with the same ordered pair is already stored. -/
def rowConflicts (store : List Friendship) (r : Friendship) : Bool :=
  store.any (fun r' => r'.user_id == r.user_id && r'.friend_id == r.friend_id)

/-- A row is accepted by the `friendships` table constraints:
`CHECK (user_id != friend_id)` and `UNIQUE(user_id, friend_id)`. -/
def rowOk (store : List Friendship) (r : Friendship) : Bool :=
  (r.user_id != r.friend_id) && !(rowConflicts store r)

/-- A multi-row `insert` statement under Postgres statement atomicity: each
row is checked against the store extended with the rows already accepted in
the same statement; any violation aborts the whole statement (`none`),
leaving the store unchanged. -/
def insertMany (store : List Friendship) : List Friendship → Option (List Friendship)
  | [] => some store
  | r :: rest => if rowOk store r then insertMany (store ++ [r]) rest else none

/-- Outcome of `addFriend`.  `attemptedWrite` records whether the client
issued the insert statement to the store: the source performs no client-side
validation at all before calling `supabase.from('friendships').insert`, so
every call attempts the write. -/
structure AddResult where
  attemptedWrite : Bool
  result : Except String (List Friendship)
  deriving Repr

/-- `addFriend` lines 175–195: unconditionally insert the two mirrored rows
`(u, friendId)` and `(friendId, u)` in one statement; a constraint violation
surfaces as the generic `'Failed to add friend'` error and the store is
unchanged. -/
def addFriend (u friendId : Nat) (store : List Friendship) : AddResult :=
  { attemptedWrite := true
    result :=
      match insertMany store [⟨u, friendId⟩, ⟨friendId, u⟩] with
      | some s => .ok s
      | none => .error "Failed to add friend" }

/-- The `removeFriend` delete filter: matches the pair in either stored
orientation. -/
def matchesPair (u f : Nat) (r : Friendship) : Bool :=
  (r.user_id == u && r.friend_id == f) || (r.user_id == f && r.friend_id == u)

/-- `removeFriend` lines 197–215: delete all rows matching either orientation
of the pair.  A delete that touches zero rows is still a successful
statement, so the result is always `ok` (transport failures aside). -/
def removeFriend (u f : Nat) (store : List Friendship) :
    Except String (List Friendship) :=
  .ok (store.filter (fun r => !(matchesPair u f r)))

/-! ## `get_network_friendships` (SQL, `src/unnamed/part_001`) -/

/-- The `network` CTE: the requester, their direct friends (`my_friends`),
and friends of those friends (`fof`).  `DISTINCT` in the SQL only affects
multiplicity, not membership, so a plain concatenation is used. -/
def networkIds (u : Nat) (rows : List Friendship) : List Nat :=
  u :: (friendIdsOf u rows ++
    (friendIdsOf u rows).flatMap (fun mf => friendIdsOf mf rows))

/-- `get_network_friendships`: the stored rows both of whose endpoints lie in
the requester's first/second-degree network. -/
def get_network_friendships (u : Nat) (rows : List Friendship) : List Friendship :=
  rows.filter (fun f =>
    (networkIds u rows).contains f.user_id &&
    (networkIds u rows).contains f.friend_id)

/-! ## Read-path state handling (Dashboard loaders, for the frame claim) -/

/-- The Dashboard in-memory state touched by the read paths. -/
structure DashState where
  profile : Option Profile
  friends : List Profile
  allUsers : List Profile
  suggestions : List Suggestion
  deriving DecidableEq, Repr

/-- `loadProfile`: on fetch error, toast and return without touching state. -/
def loadProfileStep (st : DashState) (res : Except Unit Profile) : DashState :=
  match res with
  | .error _ => st
  | .ok p => { st with profile := some p }

/-- `loadFriends` as a state step: the friendships fetch result and (when the
adjacency list is non-empty) the profiles fetch result are supplied by the
collaborator; either error branch returns without a state update.  The
empty-adjacency branch is a *success* path that sets `friends := []`. -/
def loadFriendsStep (u : Nat) (st : DashState)
    (rowsRes : Except Unit (List Friendship))
    (profilesRes : Except Unit (List Profile)) : DashState :=
  match rowsRes with
  | .error _ => st
  | .ok rows =>
      let friendIds := friendIdsOf u rows
      if friendIds.isEmpty then { st with friends := [] }
      else
        match profilesRes with
        | .error _ => st
        | .ok ps => { st with friends := ps }

/-- `loadAllUsers` as a state step. -/
def loadAllUsersStep (st : DashState) (res : Except Unit (List Profile)) : DashState :=
  match res with
  | .error _ => st
  | .ok ps => { st with allUsers := ps }

/-- `calculateSuggestions` as a state step: the edge-list fetch yields `null`
on error (`if (!allFriendships) return;`), leaving `suggestions` untouched. -/
def calcStep (u : Nat) (st : DashState) (fetchRes : Option (List Friendship)) :
    DashState :=
  match fetchRes with
  | none => st
  | some rows =>
      { st with suggestions := calculateSuggestions u st.friends st.allUsers rows }

/-- The ordering the spec's claim C3 asserts for the output: strictly more
mutual friends first, ties by ascending candidate id. -/
def claimOrderC3 (a b : Suggestion) : Prop :=
  b.mutualFriends < a.mutualFriends ∨
    (a.mutualFriends = b.mutualFriends ∧ a.user_id < b.user_id)

/-! ## Helper lemmas about the stable sort -/

theorem mem_insertDesc {t s : Suggestion} {l : List Suggestion} :
    t ∈ insertDesc s l ↔ t = s ∨ t ∈ l := by
  induction l with
  | nil => simp [insertDesc]
  | cons a as ih =>
      by_cases h : a.mutualFriends ≤ s.mutualFriends
      · simp [insertDesc, h]
      · simp only [insertDesc, if_neg h, List.mem_cons, ih]
        tauto

theorem mem_sortByMutualDesc {s : Suggestion} {l : List Suggestion} :
    s ∈ sortByMutualDesc l ↔ s ∈ l := by
  induction l with
  | nil => simp [sortByMutualDesc]
  | cons a as ih =>
      simp only [sortByMutualDesc, List.foldr_cons] at *
      rw [mem_insertDesc, ih, List.mem_cons]

theorem pairwise_insertDesc {s : Suggestion} {l : List Suggestion}
    (h : l.Pairwise (fun a b => b.mutualFriends ≤ a.mutualFriends)) :
    (insertDesc s l).Pairwise (fun a b => b.mutualFriends ≤ a.mutualFriends) := by
  induction l with
  | nil => simp [insertDesc]
  | cons a as ih =>
      rcases List.pairwise_cons.mp h with ⟨ha, has⟩
      by_cases hc : a.mutualFriends ≤ s.mutualFriends
      · simp only [insertDesc, if_pos hc]
        refine List.pairwise_cons.mpr ⟨?_, h⟩
        intro x hx
        rcases List.mem_cons.mp hx with hx | hx
        · exact hx ▸ hc
        · exact le_trans (ha x hx) hc
      · simp only [insertDesc, if_neg hc]
        refine List.pairwise_cons.mpr ⟨?_, ih has⟩
        intro x hx
        rcases mem_insertDesc.mp hx with hx | hx
        · exact hx ▸ le_of_not_le hc
        · exact ha x hx

theorem pairwise_sortByMutualDesc (l : List Suggestion) :
    (sortByMutualDesc l).Pairwise (fun a b => b.mutualFriends ≤ a.mutualFriends) := by
  induction l with
  | nil => simp [sortByMutualDesc]
  | cons a as ih => exact pairwise_insertDesc ih

theorem filter_insertDesc (s : Suggestion) (l : List Suggestion) (k : Nat) :
    (insertDesc s l).filter (fun t => t.mutualFriends == k) =
      (s :: l).filter (fun t => t.mutualFriends == k) := by
  induction l with
  | nil => rfl
  | cons a as ih =>
      by_cases hc : a.mutualFriends ≤ s.mutualFriends
      · simp only [insertDesc, if_pos hc]
      · have hlt : s.mutualFriends < a.mutualFriends := Nat.lt_of_not_le hc
        simp only [insertDesc, if_neg hc, List.filter_cons, ih]
        by_cases hps : (s.mutualFriends == k) = true
        · have hpa : (a.mutualFriends == k) = false := by
            have hs := eq_of_beq hps
            simp only [beq_eq_false_iff_ne, ne_eq]
            omega
          simp [hpa, hps, List.filter_cons]
        · have hps' : (s.mutualFriends == k) = false := by
            simpa using hps
          simp [hps', List.filter_cons]

theorem filter_sortByMutualDesc (l : List Suggestion) (k : Nat) :
    (sortByMutualDesc l).filter (fun t => t.mutualFriends == k) =
      l.filter (fun t => t.mutualFriends == k) := by
  induction l with
  | nil => rfl
  | cons a as ih =>
      show ((insertDesc a (sortByMutualDesc as)).filter _) = _
      rw [filter_insertDesc, List.filter_cons, List.filter_cons, ih]

/-! ## Helper lemmas about the counting map -/

theorem mem_bump_keys {kv : Nat × Nat} {m : List (Nat × Nat)} {k : Nat}
    (h : kv ∈ bump m k) : kv ∈ m ∨ kv.1 = k := by
  induction m with
  | nil =>
      simp only [bump, List.mem_singleton] at h
      exact Or.inr (by simp [h])
  | cons a rest ih =>
      by_cases hk : a.1 == k
      · simp only [bump, hk, if_pos] at h
        rcases List.mem_cons.mp h with h | h
        · exact Or.inr (by rw [h]; exact eq_of_beq hk)
        · exact Or.inl (List.mem_cons_of_mem _ h)
      · simp only [bump, hk] at h
        rcases List.mem_cons.mp h with h | h
        · exact Or.inl (h ▸ List.mem_cons_self _ _)
        · rcases ih h with h | h
          · exact Or.inl (List.mem_cons_of_mem _ h)
          · exact Or.inr h

theorem mem_bump_val {kv : Nat × Nat} {m : List (Nat × Nat)} {k : Nat}
    (h : kv ∈ bump m k) : kv ∈ m ∨ 1 ≤ kv.2 := by
  induction m with
  | nil =>
      simp only [bump, List.mem_singleton] at h
      exact Or.inr (by simp [h])
  | cons a rest ih =>
      by_cases hk : a.1 == k
      · simp only [bump, hk, if_pos] at h
        rcases List.mem_cons.mp h with h | h
        · exact Or.inr (by simp [h])
        · exact Or.inl (List.mem_cons_of_mem _ h)
      · simp only [bump, hk] at h
        rcases List.mem_cons.mp h with h | h
        · exact Or.inl (h ▸ List.mem_cons_self _ _)
        · rcases ih h with h | h
          · exact Or.inl (List.mem_cons_of_mem _ h)
          · exact Or.inr h

/-- Generic invariant propagation through a `foldl` whose step either keeps
an entry or introduces one satisfying `P`. -/
theorem foldl_entry_inv {α : Type} (P : Nat × Nat → Prop)
    (step : List (Nat × Nat) → α → List (Nat × Nat))
    (hstep : ∀ m x kv, kv ∈ step m x → kv ∈ m ∨ P kv) :
    ∀ (l : List α) (m : List (Nat × Nat)) (kv : Nat × Nat),
      kv ∈ l.foldl step m → kv ∈ m ∨ P kv := by
  intro l
  induction l with
  | nil => intro m kv h; exact Or.inl h
  | cons x xs ih =>
      intro m kv h
      rcases ih (step m x) kv h with h | h
      · exact hstep m x kv h
      · exact Or.inr h

theorem mem_perFriend {u : Nat} {friendIds : List Nat} {rows : List Friendship}
    {m : List (Nat × Nat)} {F : Nat} {kv : Nat × Nat}
    (h : kv ∈ perFriend u friendIds rows m F) :
    kv ∈ m ∨ (kv.1 ≠ u ∧ friendIds.contains kv.1 = false) := by
  refine foldl_entry_inv
    (fun kv => kv.1 ≠ u ∧ friendIds.contains kv.1 = false) _ ?_
    (rows.filter (adjRow F)) m kv h
  intro m' f kv' h'
  dsimp only at h'
  by_cases hcond :
      (otherEnd F f != u && !(friendIds.contains (otherEnd F f))) = true
  · rw [if_pos hcond] at h'
    rcases mem_bump_keys h' with h' | h'
    · exact Or.inl h'
    · have hc2 : otherEnd F f ≠ u ∧ friendIds.contains (otherEnd F f) = false := by
        simpa using hcond
      refine Or.inr ⟨?_, ?_⟩
      · rw [h']; exact hc2.1
      · rw [h']; exact hc2.2
  · rw [if_neg hcond] at h'
    exact Or.inl h'

theorem suggestionsMap_keys {u : Nat} {friendIds : List Nat}
    {rows : List Friendship} {kv : Nat × Nat}
    (h : kv ∈ suggestionsMap u friendIds rows) :
    kv.1 ≠ u ∧ friendIds.contains kv.1 = false := by
  have := foldl_entry_inv (fun kv => kv.1 ≠ u ∧ friendIds.contains kv.1 = false)
    (perFriend u friendIds rows) (fun m x kv h => mem_perFriend h)
    friendIds [] kv h
  rcases this with h | h
  · cases h
  · exact h

theorem mem_perFriend_val {u : Nat} {friendIds : List Nat} {rows : List Friendship}
    {m : List (Nat × Nat)} {F : Nat} {kv : Nat × Nat}
    (h : kv ∈ perFriend u friendIds rows m F) :
    kv ∈ m ∨ 1 ≤ kv.2 := by
  refine foldl_entry_inv (fun kv => 1 ≤ kv.2) _ ?_
    (rows.filter (adjRow F)) m kv h
  intro m' f kv' h'
  dsimp only at h'
  by_cases hcond :
      (otherEnd F f != u && !(friendIds.contains (otherEnd F f))) = true
  · rw [if_pos hcond] at h'
    exact mem_bump_val h'
  · rw [if_neg hcond] at h'
    exact Or.inl h'

theorem suggestionsMap_vals {u : Nat} {friendIds : List Nat}
    {rows : List Friendship} {kv : Nat × Nat}
    (h : kv ∈ suggestionsMap u friendIds rows) : 1 ≤ kv.2 := by
  have := foldl_entry_inv (fun kv => 1 ≤ kv.2)
    (perFriend u friendIds rows) (fun m x kv h => mem_perFriend_val h)
    friendIds [] kv h
  rcases this with h | h
  · cases h
  · exact h

/-- Dissect membership in the emitted suggestion list: every suggestion comes
from a map entry together with a successful profile lookup in `allUsers`. -/
theorem mem_calculateSuggestions {u : Nat} {friends allUsers : List Profile}
    {rows : List Friendship} {s : Suggestion}
    (hs : s ∈ calculateSuggestions u friends allUsers rows) :
    ∃ kv p, kv ∈ suggestionsMap u (friends.map (·.user_id)) rows ∧
      allUsers.find? (fun q => q.user_id == kv.1) = some p ∧
      s = ⟨p.user_id, kv.2⟩ := by
  have hs' := mem_sortByMutualDesc.mp hs
  rcases List.mem_filterMap.mp hs' with ⟨kv, hkv, hf⟩
  rcases hfind : allUsers.find? (fun q => q.user_id == kv.1) with _ | p
  · rw [hfind] at hf
    exact absurd hf (by simp)
  · rw [hfind] at hf
    exact ⟨kv, p, hkv, hfind, (Option.some_inj.mp hf).symm⟩

/-- Adjacency in the edge list puts the other endpoint into
`friendIdsOf u rows` (when it differs from `u`, as needed for the reversed
orientation). -/
theorem adj_mem_friendIdsOf {rows : List Friendship} {u c : Nat}
    {f : Friendship} (hf : f ∈ rows)
    (hor : (f.user_id = u ∧ f.friend_id = c) ∨ (f.user_id = c ∧ f.friend_id = u))
    (hcu : c ≠ u) : c ∈ friendIdsOf u rows := by
  rcases hor with ⟨h1, h2⟩ | ⟨h1, h2⟩
  · exact List.mem_map.mpr ⟨f, List.mem_filter.mpr ⟨hf, by simp [adjRow, h1]⟩,
      by simp [otherEnd, h1, h2]⟩
  · exact List.mem_map.mpr ⟨f, List.mem_filter.mpr ⟨hf, by simp [adjRow, h2]⟩,
      by simp [otherEnd, h1, h2, hcu]⟩

example : suggestionsFor 1 [⟨1⟩, ⟨2⟩, ⟨3⟩] [⟨1, 2⟩, ⟨2, 3⟩] = [⟨3, 1⟩] := by decide

example :
    suggestionsFor 1 [⟨1⟩, ⟨2⟩, ⟨3⟩] [⟨1, 2⟩, ⟨2, 1⟩, ⟨2, 3⟩, ⟨3, 2⟩] = [⟨3, 2⟩] := by
  decide

example :
    suggestionsFor 1 [⟨1⟩, ⟨2⟩, ⟨3⟩, ⟨5⟩] [⟨1, 2⟩, ⟨2, 5⟩, ⟨2, 3⟩] =
      [⟨5, 1⟩, ⟨3, 1⟩] := by decide

example : distinctMutualCount [⟨1, 2⟩, ⟨2, 1⟩, ⟨2, 3⟩, ⟨3, 2⟩] 1 3 = 1 := by decide

example :
    (addFriend 1 2 []).result = .ok [⟨1, 2⟩, ⟨2, 1⟩] := rfl

example :
    (addFriend 1 2 [⟨1, 2⟩, ⟨2, 1⟩]).result = .error "Failed to add friend" := rfl

/-! ## Claim theorems -/

/-- Claim C1 (code bug): the code increments a candidate's counter once per
stored edge *row* touching the mutual friend, while the spec demands one
increment per distinct mutual friend.  With the mirrored two-row store that
`addFriend` itself writes (friendships {1,2} and {2,3} stored as four rows),
the pipeline reports `mutualFriends = 2` for candidate 3, whereas
`|neighborsOf(1) ∩ neighborsOf(3)| = 1`. -/
theorem C1_per_row_counting_doubles_mutuals :
    suggestionsFor 1 [⟨1⟩, ⟨2⟩, ⟨3⟩] [⟨1, 2⟩, ⟨2, 1⟩, ⟨2, 3⟩, ⟨3, 2⟩] = [⟨3, 2⟩] ∧
      distinctMutualCount [⟨1, 2⟩, ⟨2, 1⟩, ⟨2, 3⟩, ⟨3, 2⟩] 1 3 = 1 :=
  ⟨by decide, by decide⟩

/-- Claim C3 counterexample: on the edge list `[(1,2),(2,5),(2,3)]` the
requester 1 gets suggestions 5 and 3, both with one mutual friend, emitted in
first-discovery order `[5, 3]` — not in ascending candidate id order as the
claim asserts. -/
theorem C3_counterexample :
    suggestionsFor 1 [⟨1⟩, ⟨2⟩, ⟨3⟩, ⟨5⟩] [⟨1, 2⟩, ⟨2, 5⟩, ⟨2, 3⟩] =
        [⟨5, 1⟩, ⟨3, 1⟩] ∧
      ¬ (suggestionsFor 1 [⟨1⟩, ⟨2⟩, ⟨3⟩, ⟨5⟩]
          [⟨1, 2⟩, ⟨2, 5⟩, ⟨2, 3⟩]).Pairwise claimOrderC3 := by
  refine ⟨by decide, ?_⟩
  intro h
  rw [show suggestionsFor 1 [⟨1⟩, ⟨2⟩, ⟨3⟩, ⟨5⟩] [⟨1, 2⟩, ⟨2, 5⟩, ⟨2, 3⟩] =
      [⟨5, 1⟩, ⟨3, 1⟩] by decide] at h
  have h2 := (List.pairwise_cons.mp h).1 ⟨3, 1⟩ (List.mem_cons_self _ _)
  simp only [claimOrderC3] at h2
  rcases h2 with h2 | ⟨_, h3⟩
  · exact absurd h2 (by decide)
  · exact absurd h3 (by decide)

/-- Claim C3 amended: the output of the suggestion computation is sorted
non-increasing by `mutualFriends`, and entries with equal counts keep their
first-discovery (map insertion) order — the sort is stable, so filtering the
output at any fixed count equals filtering the pre-sort emission order. -/
theorem C3_sorted_desc_stable (u : Nat) (friends allUsers : List Profile)
    (rows : List Friendship) :
    (calculateSuggestions u friends allUsers rows).Pairwise
        (fun a b => b.mutualFriends ≤ a.mutualFriends) ∧
      ∀ k, (calculateSuggestions u friends allUsers rows).filter
            (fun t => t.mutualFriends == k) =
          (suggestionsUnsorted u friends allUsers rows).filter
            (fun t => t.mutualFriends == k) :=
  ⟨pairwise_sortByMutualDesc _, fun k => filter_sortByMutualDesc _ k⟩

/-- On a successful `addFriend`, the store is extended by exactly the two
mirrored rows, in statement order. -/
theorem insertMany_eq_append :
    ∀ (l : List Friendship) (store s' : List Friendship),
      insertMany store l = some s' → s' = store ++ l := by
  intro l
  induction l with
  | nil =>
      intro store s' h
      simp only [insertMany] at h
      rw [List.append_nil]
      exact (Option.some_inj.mp h).symm
  | cons r rest ih =>
      intro store s' h
      simp only [insertMany] at h
      by_cases hc : rowOk store r = true
      · rw [if_pos hc] at h
        have := ih (store ++ [r]) s' h
        simpa [List.append_assoc] using this
      · rw [if_neg hc] at h
        cases h

theorem addFriend_ok_eq {a b : Nat} {store s' : List Friendship}
    (h : (addFriend a b store).result = .ok s') :
    s' = store ++ [⟨a, b⟩, ⟨b, a⟩] := by
  unfold addFriend at h
  dsimp only at h
  rcases hm : insertMany store [⟨a, b⟩, ⟨b, a⟩] with _ | s''
  · rw [hm] at h
    exact absurd h (by simp)
  · rw [hm] at h
    have hss : s'' = s' := by simpa using h
    rw [← hss]
    exact insertMany_eq_append _ store s'' hm

/-- Claim C4 counterexample: after a successful `addFriend 1 2` on the empty
store, calling `addFriend 1 2` again does not succeed — the mirrored insert
violates `UNIQUE(user_id, friend_id)` and errors. -/
theorem C4_counterexample :
    (addFriend 1 2 []).result = .ok [⟨1, 2⟩, ⟨2, 1⟩] ∧
      (addFriend 1 2 [⟨1, 2⟩, ⟨2, 1⟩]).result = .error "Failed to add friend" :=
  ⟨rfl, rfl⟩

/-- Claim C4 amended: re-adding an existing friendship fails with the
(uniqueness-violation) insert error instead of succeeding; the aborted
statement writes nothing, so the store still holds exactly the rows of the
first call. -/
theorem C4_readd_errors (a b : Nat) (s s' : List Friendship)
    (h : (addFriend a b s).result = .ok s') :
    (addFriend a b s').result = .error "Failed to add friend" := by
  have hs' := addFriend_ok_eq h
  have hmem : (⟨a, b⟩ : Friendship) ∈ s' := by
    rw [hs']; simp
  have hconf : rowConflicts s' ⟨a, b⟩ = true :=
    List.any_eq_true.mpr ⟨⟨a, b⟩, hmem, by simp⟩
  have hok : rowOk s' ⟨a, b⟩ = false := by
    simp [rowOk, hconf]
  unfold addFriend
  dsimp only
  simp [insertMany, hok]

/-- Witness for C4: the amended behaviour at the concrete store produced by a
first successful `addFriend 1 2`. -/
theorem C4_readd_errors_witness :
    (addFriend 1 2 [⟨1, 2⟩, ⟨2, 1⟩]).result = .error "Failed to add friend" :=
  C4_readd_errors 1 2 [] [⟨1, 2⟩, ⟨2, 1⟩] rfl

/-- Claim C5 counterexample: `addFriend 1 1` does issue the insert statement
(the client performs no self-friendship pre-check), so the failure is not
raised before a write to the store is attempted. -/
theorem C5_counterexample :
    (addFriend 1 1 []).attemptedWrite = true ∧
      (addFriend 1 1 []).result = .error "Failed to add friend" :=
  ⟨rfl, rfl⟩

/-- Claim C5 amended: for every user and store, the self-add is attempted
against the store and rejected there by `CHECK (user_id != friend_id)`,
surfacing as the generic insert failure; the aborted statement leaves the
store unchanged. -/
theorem C5_self_add_rejected_at_store (a : Nat) (store : List Friendship) :
    (addFriend a a store).result = .error "Failed to add friend" ∧
      (addFriend a a store).attemptedWrite = true := by
  constructor
  · have hok : rowOk store ⟨a, a⟩ = false := by
      simp [rowOk]
    unfold addFriend
    dsimp only
    simp [insertMany, hok]
  · rfl

/-- Claim C2: the suggestion pipeline never emits the requester, nor any user
adjacent to the requester in the edge list it ran over. -/
theorem C2_no_self_no_friends (u : Nat) (profiles : List Profile)
    (rows : List Friendship) (s : Suggestion)
    (hs : s ∈ suggestionsFor u profiles rows) :
    s.user_id ≠ u ∧ ¬ adjacentIn rows u s.user_id := by
  simp only [suggestionsFor] at hs
  split at hs
  · cases hs
  · rcases mem_calculateSuggestions hs with ⟨kv, p, hkv, hfind, hsv⟩
    have hkey := suggestionsMap_keys hkv
    have hpin := List.mem_of_find?_eq_some hfind
    have hpk : p.user_id = kv.1 := by
      have hpred := List.find?_some hfind
      simpa using hpred
    have hsid : s.user_id = kv.1 := by rw [hsv]; exact hpk
    refine ⟨by rw [hsid]; exact hkey.1, ?_⟩
    rintro ⟨f, hf, hor⟩
    have hcu : s.user_id ≠ u := by rw [hsid]; exact hkey.1
    have hmem : s.user_id ∈ friendIdsOf u rows := adj_mem_friendIdsOf hf hor hcu
    have hpp : p ∈ profiles := (List.mem_filter.mp hpin).1
    have hpmem : p.user_id ∈ friendIdsOf u rows := by
      rw [hpk, ← hsid]; exact hmem
    have hpf : p ∈ loadFriends u profiles rows :=
      List.mem_filter.mpr ⟨hpp, List.elem_eq_true_of_mem hpmem⟩
    have hk_in : ((loadFriends u profiles rows).map (·.user_id)).contains kv.1
        = true :=
      List.elem_eq_true_of_mem (List.mem_map.mpr ⟨p, hpf, hpk⟩)
    rw [hkey.2] at hk_in
    cases hk_in

/-- Witness for C2 at a concrete snapshot: user 1 with friend 2 and
second-degree contact 3. -/
theorem C2_no_self_no_friends_witness :
    Suggestion.user_id ⟨3, 1⟩ ≠ 1 ∧
      ¬ adjacentIn [⟨1, 2⟩, ⟨2, 3⟩] 1 (Suggestion.user_id ⟨3, 1⟩) :=
  C2_no_self_no_friends 1 [⟨1⟩, ⟨2⟩, ⟨3⟩] [⟨1, 2⟩, ⟨2, 3⟩] ⟨3, 1⟩ (by decide)

/-- Claim C6: `removeFriend` always reports success; if no stored row matches
the pair in either orientation the store is returned unchanged, and every row
matching either orientation is removed while all other rows are kept. -/
theorem C6_remove_spec (u f : Nat) (store s' : List Friendship)
    (h : removeFriend u f store = .ok s') :
    ((∀ r ∈ store, matchesPair u f r = false) → s' = store) ∧
      (∀ r, matchesPair u f r = true → r ∉ s') ∧
      (∀ r ∈ store, matchesPair u f r = false → r ∈ s') := by
  have hs' : s' = store.filter (fun r => !(matchesPair u f r)) := by
    simpa [removeFriend] using h.symm
  subst hs'
  refine ⟨?_, ?_, ?_⟩
  · intro hall
    apply List.filter_eq_self.mpr
    intro r hr
    simp [hall r hr]
  · intro r hr hmem
    have hb := (List.mem_filter.mp hmem).2
    rw [hr] at hb
    cases hb
  · intro r hr hfalse
    exact List.mem_filter.mpr ⟨hr, by simp [hfalse]⟩

/-- Witness for C6: deleting pair (1,2) from a store holding the reversed
orientation `(2,1)` succeeds, removes that row, and keeps the unrelated row. -/
theorem C6_remove_spec_witness :
    removeFriend 1 2 [⟨2, 1⟩, ⟨3, 4⟩] = .ok [⟨3, 4⟩] ∧
      (⟨2, 1⟩ : Friendship) ∉ ([⟨3, 4⟩] : List Friendship) ∧
      (⟨3, 4⟩ : Friendship) ∈ ([⟨3, 4⟩] : List Friendship) :=
  ⟨rfl,
    (C6_remove_spec 1 2 [⟨2, 1⟩, ⟨3, 4⟩] [⟨3, 4⟩] rfl).2.1 ⟨2, 1⟩ (by decide),
    (C6_remove_spec 1 2 [⟨2, 1⟩, ⟨3, 4⟩] [⟨3, 4⟩] rfl).2.2 ⟨3, 4⟩ (by decide)
      (by decide)⟩

/-- Claim C7: after a successful `addFriend a b`, rebuilding adjacency from
the stored rows shows `b` among `a`'s friend ids and `a` among `b`'s. -/
theorem C7_add_then_neighbors_symmetric (a b : Nat) (store s' : List Friendship)
    (_hab : a ≠ b) (h : (addFriend a b store).result = .ok s') :
    b ∈ friendIdsOf a s' ∧ a ∈ friendIdsOf b s' := by
  have he := addFriend_ok_eq h
  subst he
  constructor
  · exact List.mem_map.mpr ⟨⟨a, b⟩,
      List.mem_filter.mpr ⟨by simp, by simp [adjRow]⟩, by simp [otherEnd]⟩
  · exact List.mem_map.mpr ⟨⟨b, a⟩,
      List.mem_filter.mpr ⟨by simp, by simp [adjRow]⟩, by simp [otherEnd]⟩

/-- Witness for C7: adding (1,2) on the empty store. -/
theorem C7_add_then_neighbors_symmetric_witness :
    2 ∈ friendIdsOf 1 [⟨1, 2⟩, ⟨2, 1⟩] ∧ 1 ∈ friendIdsOf 2 [⟨1, 2⟩, ⟨2, 1⟩] :=
  C7_add_then_neighbors_symmetric 1 2 [] [⟨1, 2⟩, ⟨2, 1⟩] (by decide) rfl

/-- Claim C10: every emitted suggestion carries the profile of a user present
in the loaded roster (`allUsers`, which excludes the requester), and its
mutual counter is at least 1; candidates without a roster profile are
silently dropped. -/
theorem C10_suggestions_from_roster (u : Nat) (profiles : List Profile)
    (rows : List Friendship) (s : Suggestion)
    (hs : s ∈ suggestionsFor u profiles rows) :
    (∃ p, p ∈ loadAllUsers u profiles ∧ p.user_id = s.user_id) ∧
      1 ≤ s.mutualFriends := by
  simp only [suggestionsFor] at hs
  split at hs
  · cases hs
  · rcases mem_calculateSuggestions hs with ⟨kv, p, hkv, hfind, hsv⟩
    have hval := suggestionsMap_vals hkv
    have hpin := List.mem_of_find?_eq_some hfind
    refine ⟨⟨p, hpin, ?_⟩, ?_⟩
    · rw [hsv]
    · rw [hsv]; exact hval

/-- Witness for C10: user 1 with friend 2 and second-degree contact 4. -/
theorem C10_suggestions_from_roster_witness :
    (∃ p, p ∈ loadAllUsers 1 [⟨1⟩, ⟨2⟩, ⟨4⟩] ∧
        p.user_id = Suggestion.user_id ⟨4, 1⟩) ∧
      1 ≤ Suggestion.mutualFriends ⟨4, 1⟩ :=
  C10_suggestions_from_roster 1 [⟨1⟩, ⟨2⟩, ⟨4⟩] [⟨1, 2⟩, ⟨2, 4⟩] ⟨4, 1⟩ (by decide)

/-- A row adjacent to `F` contributes its other endpoint to `F`'s adjacency
id list. -/
theorem mem_otherEnd_friendIdsOf {F : Nat} {f : Friendship}
    {rows : List Friendship} (hf : f ∈ rows) (hadj : adjRow F f = true) :
    otherEnd F f ∈ friendIdsOf F rows :=
  List.mem_map.mpr ⟨f, List.mem_filter.mpr ⟨hf, hadj⟩, rfl⟩

/-- Both endpoints of any row adjacent to a direct friend `F` of `u` lie in
the requester's first/second-degree network. -/
theorem networkIds_adj {u F : Nat} {rows : List Friendship}
    (hF : F ∈ friendIdsOf u rows) {f : Friendship} (hf : f ∈ rows)
    (hadj : adjRow F f = true) :
    f.user_id ∈ networkIds u rows ∧ f.friend_id ∈ networkIds u rows := by
  have hother : otherEnd F f ∈ networkIds u rows := by
    apply List.mem_cons_of_mem
    exact List.mem_append.mpr
      (Or.inr (List.mem_flatMap.mpr ⟨F, hF, mem_otherEnd_friendIdsOf hf hadj⟩))
  have hFnet : F ∈ networkIds u rows :=
    List.mem_cons_of_mem _ (List.mem_append.mpr (Or.inl hF))
  by_cases hu : (f.user_id == F) = true
  · have h1 : f.user_id = F := eq_of_beq hu
    have h2 : otherEnd F f = f.friend_id := by simp [otherEnd, hu]
    exact ⟨h1 ▸ hFnet, h2 ▸ hother⟩
  · have h1 : f.friend_id = F := by
      have := hadj
      simp only [adjRow, Bool.or_eq_true] at this
      rcases this with h | h
      · exact absurd h hu
      · exact eq_of_beq h
    have h2 : otherEnd F f = f.user_id := by simp [otherEnd, hu]
    exact ⟨h2 ▸ hother, h1 ▸ hFnet⟩

/-- For a direct friend `F` of the requester, filtering the network subgraph
to rows touching `F` gives exactly the rows of the full edge list touching
`F`. -/
theorem filter_network {u F : Nat} {rows : List Friendship}
    (hF : F ∈ friendIdsOf u rows) :
    (get_network_friendships u rows).filter (adjRow F) = rows.filter (adjRow F) := by
  unfold get_network_friendships
  rw [List.filter_filter]
  apply List.filter_congr
  intro f hf
  by_cases hadj : adjRow F f = true
  · have hnet := networkIds_adj hF hf hadj
    have c1 : (networkIds u rows).contains f.user_id = true :=
      List.elem_eq_true_of_mem hnet.1
    have c2 : (networkIds u rows).contains f.friend_id = true :=
      List.elem_eq_true_of_mem hnet.2
    simp only [hadj, c1, c2, Bool.and_true, Bool.true_and]
  · have hadj' : adjRow F f = false := Bool.eq_false_iff.mpr hadj
    simp [hadj']

theorem perFriend_network {u F : Nat} {friendIds : List Nat}
    {rows : List Friendship} (hF : F ∈ friendIdsOf u rows)
    (m : List (Nat × Nat)) :
    perFriend u friendIds (get_network_friendships u rows) m F =
      perFriend u friendIds rows m F := by
  unfold perFriend
  rw [filter_network hF]

theorem suggestionsMap_network (u : Nat) (friendIds : List Nat)
    (rows : List Friendship)
    (hsub : ∀ F ∈ friendIds, F ∈ friendIdsOf u rows) :
    suggestionsMap u friendIds (get_network_friendships u rows) =
      suggestionsMap u friendIds rows := by
  unfold suggestionsMap
  suffices h : ∀ (l : List Nat) (m : List (Nat × Nat)),
      (∀ F ∈ l, F ∈ friendIdsOf u rows) →
      l.foldl (perFriend u friendIds (get_network_friendships u rows)) m =
        l.foldl (perFriend u friendIds rows) m from h friendIds [] hsub
  intro l
  induction l with
  | nil => intro m _; rfl
  | cons x xs ih =>
      intro m hmem
      simp only [List.foldl_cons]
      rw [perFriend_network (hmem x (List.mem_cons_self _ _))]
      exact ih _ (fun F hF => hmem F (List.mem_cons_of_mem _ hF))

/-- Claim C8: running the ranking over the first/second-degree subgraph
returned by `get_network_friendships` yields exactly the same suggestion list
(same candidates, same mutual counts, same order) as running it over the
full edge list. -/
theorem C8_network_subset_same_ranking (u : Nat) (profiles : List Profile)
    (rows : List Friendship) :
    calculateSuggestions u (loadFriends u profiles rows) (loadAllUsers u profiles)
        (get_network_friendships u rows) =
      calculateSuggestions u (loadFriends u profiles rows)
        (loadAllUsers u profiles) rows := by
  have hsub : ∀ F ∈ (loadFriends u profiles rows).map (·.user_id),
      F ∈ friendIdsOf u rows := by
    intro F hF
    rcases List.mem_map.mp hF with ⟨p, hp, hpF⟩
    have hc := (List.mem_filter.mp hp).2
    rw [← hpF]
    exact List.elem_iff.mp hc
  unfold calculateSuggestions suggestionsUnsorted
  rw [suggestionsMap_network u _ rows hsub]

/-- Claim C9: every read-path failure branch leaves the previously loaded
in-memory state untouched — profile fetch error, friendships fetch error,
friend-profiles fetch error (reachable when the adjacency list is
non-empty), roster fetch error, and the edge-list fetch error inside the
suggestion computation. -/
theorem C9_read_failures_keep_state (u : Nat) (st : DashState)
    (rows : List Friendship) (pr : Except Unit (List Profile))
    (hne : (friendIdsOf u rows).isEmpty = false) :
    loadProfileStep st (.error ()) = st ∧
      loadFriendsStep u st (.error ()) pr = st ∧
      loadFriendsStep u st (.ok rows) (.error ()) = st ∧
      loadAllUsersStep st (.error ()) = st ∧
      calcStep u st none = st := by
  refine ⟨rfl, rfl, ?_, rfl, rfl⟩
  unfold loadFriendsStep
  simp [hne]

/-- Witness for C9 at a concrete non-empty prior state. -/
theorem C9_read_failures_keep_state_witness :
    loadProfileStep ⟨some ⟨1⟩, [⟨2⟩], [⟨2⟩, ⟨3⟩], [⟨3, 1⟩]⟩ (.error ()) =
        ⟨some ⟨1⟩, [⟨2⟩], [⟨2⟩, ⟨3⟩], [⟨3, 1⟩]⟩ ∧
      loadFriendsStep 1 ⟨some ⟨1⟩, [⟨2⟩], [⟨2⟩, ⟨3⟩], [⟨3, 1⟩]⟩ (.error ())
          (.ok []) = ⟨some ⟨1⟩, [⟨2⟩], [⟨2⟩, ⟨3⟩], [⟨3, 1⟩]⟩ ∧
      loadFriendsStep 1 ⟨some ⟨1⟩, [⟨2⟩], [⟨2⟩, ⟨3⟩], [⟨3, 1⟩]⟩ (.ok [⟨1, 2⟩])
          (.error ()) = ⟨some ⟨1⟩, [⟨2⟩], [⟨2⟩, ⟨3⟩], [⟨3, 1⟩]⟩ ∧
      loadAllUsersStep ⟨some ⟨1⟩, [⟨2⟩], [⟨2⟩, ⟨3⟩], [⟨3, 1⟩]⟩ (.error ()) =
        ⟨some ⟨1⟩, [⟨2⟩], [⟨2⟩, ⟨3⟩], [⟨3, 1⟩]⟩ ∧
      calcStep 1 ⟨some ⟨1⟩, [⟨2⟩], [⟨2⟩, ⟨3⟩], [⟨3, 1⟩]⟩ none =
        ⟨some ⟨1⟩, [⟨2⟩], [⟨2⟩, ⟨3⟩], [⟨3, 1⟩]⟩ :=
  C9_read_failures_keep_state 1 ⟨some ⟨1⟩, [⟨2⟩], [⟨2⟩, ⟨3⟩], [⟨3, 1⟩]⟩
    [⟨1, 2⟩] (.ok []) (by decide)
